import Mathlib

/-!
Shallow embedding of the `int-math` geometry library (src/lib.rs).

The library defines five value types over 16-bit machine integers:
`UVec2` (u16 coordinates), `Vec2` (i16), `Vec3` (i16), `URect`
(UVec2 position and size) and `Rect` (Vec2 position, UVec2 size).

Machine integers are embedded as `Nat` (for u16) and `Int` (for i16)
together with range predicates.  Rust's debug-build arithmetic traps
(panics) on overflow, unsigned underflow and division by zero; every
trapping operation is embedded as an `Option`-returning function where
`none` is the trap.  Signed division uses `Int.tdiv`, Lean's
truncation-toward-zero division, which matches Rust's `/` on `i16`;
it traps on a zero divisor and on the one overflowing quotient
`i16::MIN / -1`.  The cast `size as i16` inside `Rect::center` is a
wrapping (never-trapping) cast, embedded as `u16AsI16`.
-/

namespace IntMath

/-- Largest value of the Rust type `u16`. -/
def u16Max : Nat := 65535

/-- Smallest value of the Rust type `i16`. -/
def i16Min : Int := -32768

/-- Largest value of the Rust type `i16`. -/
def i16Max : Int := 32767

/-- Result check of Rust debug-build `u16` arithmetic: the mathematical
result is returned when it fits in `u16`, otherwise the operation traps. -/
def checkedU16 (n : Nat) : Option Nat :=
  if n ≤ u16Max then some n else none

/-- Result check of Rust debug-build `i16` arithmetic: the mathematical
result is returned when it fits in `i16`, otherwise the operation traps. -/
def checkedI16 (n : Int) : Option Int :=
  if i16Min ≤ n ∧ n ≤ i16Max then some n else none

/-- Rust's wrapping cast `(n : u16) as i16`: values below `2^15` are kept,
values from `2^15` to `2^16 - 1` wrap to negative. -/
def u16AsI16 (n : Nat) : Int :=
  if n < 32768 then (n : Int) else (n : Int) - 65536

/-- Struct `UVec2` from src/lib.rs: a 2D vector with `u16` coordinates. -/
structure UVec2 where
  x : Nat
  y : Nat
deriving DecidableEq

/-- Both coordinates fit the Rust field type `u16`. -/
def UVec2.isValid (v : UVec2) : Prop := v.x ≤ u16Max ∧ v.y ≤ u16Max

instance (v : UVec2) : Decidable v.isValid := by
  unfold UVec2.isValid; infer_instance

/-- Constructor `UVec2::new`. -/
def UVec2.new (x y : Nat) : UVec2 := ⟨x, y⟩

/-- Operator `impl Add for UVec2`: field-wise `u16` addition, trapping on
overflow. -/
def UVec2.add (a b : UVec2) : Option UVec2 :=
  match checkedU16 (a.x + b.x), checkedU16 (a.y + b.y) with
  | some x, some y => some ⟨x, y⟩
  | _, _ => none

/-- Operator `impl Sub for UVec2`: field-wise `u16` subtraction, trapping on
underflow (when a true result would be negative). -/
def UVec2.sub (a b : UVec2) : Option UVec2 :=
  if b.x ≤ a.x ∧ b.y ≤ a.y then some ⟨a.x - b.x, a.y - b.y⟩ else none

/-- Operator `impl Div<u16> for UVec2`: field-wise `u16` division by a
scalar, trapping on a zero divisor. -/
def UVec2.div (v : UVec2) (s : Nat) : Option UVec2 :=
  if s = 0 then none else some ⟨v.x / s, v.y / s⟩

/-- Operator `impl Mul<u16> for UVec2`: field-wise `u16` multiplication by a
scalar, trapping on overflow. -/
def UVec2.mul (v : UVec2) (s : Nat) : Option UVec2 :=
  match checkedU16 (v.x * s), checkedU16 (v.y * s) with
  | some x, some y => some ⟨x, y⟩
  | _, _ => none

/-- Conversion `impl From<(u16, u16)> for UVec2`. -/
def UVec2.fromPair (p : Nat × Nat) : UVec2 := ⟨p.1, p.2⟩

/-- Struct `Vec2` from src/lib.rs: a 2D vector with `i16` coordinates. -/
structure Vec2 where
  x : Int
  y : Int
deriving DecidableEq

/-- Both coordinates fit the Rust field type `i16`. -/
def Vec2.isValid (v : Vec2) : Prop :=
  i16Min ≤ v.x ∧ v.x ≤ i16Max ∧ i16Min ≤ v.y ∧ v.y ≤ i16Max

instance (v : Vec2) : Decidable v.isValid := by
  unfold Vec2.isValid; infer_instance

/-- Constructor `Vec2::new`. -/
def Vec2.new (x y : Int) : Vec2 := ⟨x, y⟩

/-- Operator `impl Add for Vec2`: field-wise `i16` addition, trapping on
overflow. -/
def Vec2.add (a b : Vec2) : Option Vec2 :=
  match checkedI16 (a.x + b.x), checkedI16 (a.y + b.y) with
  | some x, some y => some ⟨x, y⟩
  | _, _ => none

/-- Operator `impl Sub for Vec2`: field-wise `i16` subtraction, trapping on
overflow. -/
def Vec2.sub (a b : Vec2) : Option Vec2 :=
  match checkedI16 (a.x - b.x), checkedI16 (a.y - b.y) with
  | some x, some y => some ⟨x, y⟩
  | _, _ => none

/-- Operator `impl Div<i16> for Vec2`: field-wise truncating `i16` division
by a scalar, trapping on a zero divisor and on a non-representable quotient
(`i16::MIN / -1`). -/
def Vec2.div (v : Vec2) (s : Int) : Option Vec2 :=
  if s = 0 then none
  else
    match checkedI16 (Int.tdiv v.x s), checkedI16 (Int.tdiv v.y s) with
    | some x, some y => some ⟨x, y⟩
    | _, _ => none

/-- Operator `impl Mul<i16> for Vec2`: field-wise `i16` multiplication by a
scalar, trapping on overflow. -/
def Vec2.mul (v : Vec2) (s : Int) : Option Vec2 :=
  match checkedI16 (v.x * s), checkedI16 (v.y * s) with
  | some x, some y => some ⟨x, y⟩
  | _, _ => none

/-- Conversion `impl From<(i16, i16)> for Vec2`. -/
def Vec2.fromPair (p : Int × Int) : Vec2 := ⟨p.1, p.2⟩

/-- Struct `Vec3` from src/lib.rs: a 3D vector with `i16` coordinates. -/
structure Vec3 where
  x : Int
  y : Int
  z : Int
deriving DecidableEq

/-- All three coordinates fit the Rust field type `i16`. -/
def Vec3.isValid (v : Vec3) : Prop :=
  i16Min ≤ v.x ∧ v.x ≤ i16Max ∧ i16Min ≤ v.y ∧ v.y ≤ i16Max ∧
    i16Min ≤ v.z ∧ v.z ≤ i16Max

instance (v : Vec3) : Decidable v.isValid := by
  unfold Vec3.isValid; infer_instance

/-- Constructor `Vec3::new`. -/
def Vec3.new (x y z : Int) : Vec3 := ⟨x, y, z⟩

/-- Conversion `impl From<Vec2> for Vec3`: lifts a 2D vector into 3D with
depth zero; it never traps. -/
def Vec3.fromVec2 (v : Vec2) : Vec3 := ⟨v.x, v.y, 0⟩

/-- Operator `impl Add for Vec3`: field-wise `i16` addition, trapping on
overflow. -/
def Vec3.add (a b : Vec3) : Option Vec3 :=
  match checkedI16 (a.x + b.x), checkedI16 (a.y + b.y),
      checkedI16 (a.z + b.z) with
  | some x, some y, some z => some ⟨x, y, z⟩
  | _, _, _ => none

/-- Operator `impl Sub for Vec3`: field-wise `i16` subtraction, trapping on
overflow. -/
def Vec3.sub (a b : Vec3) : Option Vec3 :=
  match checkedI16 (a.x - b.x), checkedI16 (a.y - b.y),
      checkedI16 (a.z - b.z) with
  | some x, some y, some z => some ⟨x, y, z⟩
  | _, _, _ => none

/-- Operator `impl Div<i16> for Vec3`: field-wise truncating `i16` division
by a scalar, trapping on a zero divisor and on a non-representable quotient
(`i16::MIN / -1`). -/
def Vec3.div (v : Vec3) (s : Int) : Option Vec3 :=
  if s = 0 then none
  else
    match checkedI16 (Int.tdiv v.x s), checkedI16 (Int.tdiv v.y s),
        checkedI16 (Int.tdiv v.z s) with
    | some x, some y, some z => some ⟨x, y, z⟩
    | _, _, _ => none

/-- Operator `impl Mul<i16> for Vec3`: field-wise `i16` multiplication by a
scalar, trapping on overflow. -/
def Vec3.mul (v : Vec3) (s : Int) : Option Vec3 :=
  match checkedI16 (v.x * s), checkedI16 (v.y * s), checkedI16 (v.z * s) with
  | some x, some y, some z => some ⟨x, y, z⟩
  | _, _, _ => none

/-- Struct `URect` from src/lib.rs: a rectangle with unsigned position and
size. -/
structure URect where
  position : UVec2
  size : UVec2
deriving DecidableEq

/-- Position and size fit the Rust field type `UVec2`. -/
def URect.isValid (r : URect) : Prop := r.position.isValid ∧ r.size.isValid

instance (r : URect) : Decidable r.isValid := by
  unfold URect.isValid; infer_instance

/-- Constructor `URect::new(x, y, width, height)`. -/
def URect.new (x y width height : Nat) : URect :=
  ⟨⟨x, y⟩, ⟨width, height⟩⟩

/-- Constructor `URect::with_position_and_size`. -/
def URect.with_position_and_size (position size : UVec2) : URect :=
  ⟨position, size⟩

/-- Method `URect::center`: `(position.x + size.x / 2, position.y +
size.y / 2)` in `u16` arithmetic; the halving never traps, the additions
trap on overflow. -/
def URect.center (r : URect) : Option UVec2 :=
  match checkedU16 (r.position.x + r.size.x / 2),
      checkedU16 (r.position.y + r.size.y / 2) with
  | some x, some y => some ⟨x, y⟩
  | _, _ => none

/-- Method `URect::with_offset`: translates the position by `offset` via
`UVec2` addition (trapping on overflow) and keeps the size. -/
def URect.with_offset (r : URect) (offset : UVec2) : Option URect :=
  match UVec2.add r.position offset with
  | some p => some (URect.with_position_and_size p r.size)
  | none => none

/-- Conversion `impl From<(u16, u16, u16, u16)> for URect`. -/
def URect.fromQuad (q : Nat × Nat × Nat × Nat) : URect :=
  ⟨UVec2.fromPair (q.1, q.2.1), UVec2.fromPair (q.2.2.1, q.2.2.2)⟩

/-- Struct `Rect` from src/lib.rs: a rectangle with signed position and
unsigned size. -/
structure Rect where
  position : Vec2
  size : UVec2
deriving DecidableEq

/-- Position fits `Vec2` and size fits `UVec2`. -/
def Rect.isValid (r : Rect) : Prop := r.position.isValid ∧ r.size.isValid

instance (r : Rect) : Decidable r.isValid := by
  unfold Rect.isValid; infer_instance

/-- Constructor `Rect::new(x, y, width, height)`. -/
def Rect.new (x y : Int) (width height : Nat) : Rect :=
  ⟨⟨x, y⟩, ⟨width, height⟩⟩

/-- Constructor `Rect::with_position_and_size`. -/
def Rect.with_position_and_size (position : Vec2) (size : UVec2) : Rect :=
  ⟨position, size⟩

/-- Method `Rect::center`: `position.x + (size.x as i16) / 2` field-wise.
The size field is first wrapping-cast from `u16` to `i16`, then halved with
truncating `i16` division (never trapping), then added to the position with
`i16` addition (trapping on overflow). -/
def Rect.center (r : Rect) : Option Vec2 :=
  match checkedI16 (r.position.x + Int.tdiv (u16AsI16 r.size.x) 2),
      checkedI16 (r.position.y + Int.tdiv (u16AsI16 r.size.y) 2) with
  | some x, some y => some ⟨x, y⟩
  | _, _ => none

/-- Method `Rect::with_offset`: translates the position by `offset` via
`Vec2` addition (trapping on overflow) and keeps the size. -/
def Rect.with_offset (r : Rect) (offset : Vec2) : Option Rect :=
  match Vec2.add r.position offset with
  | some p => some (Rect.with_position_and_size p r.size)
  | none => none

/-- Conversion `impl From<(i16, i16, u16, u16)> for Rect`. -/
def Rect.fromQuad (q : Int × Int × Nat × Nat) : Rect :=
  ⟨Vec2.fromPair (q.1, q.2.1), UVec2.fromPair (q.2.2.1, q.2.2.2)⟩

/-- Bit width of the coordinate fields of `UVec2` (`u16` in the source). -/
def UVec2.fieldBits : Nat := 16

/-- Bit width of the coordinate fields of `Vec2` (`i16` in the source). -/
def Vec2.fieldBits : Nat := 16

/-- Bit width of the coordinate fields of `Vec3` (`i16` in the source). -/
def Vec3.fieldBits : Nat := 16

/-- Bit widths of the field types of `URect` (`u16` position, `u16` size). -/
def URect.fieldBits : Nat := 16

/-- Bit widths of the field types of `Rect` (`i16` position, `u16` size). -/
def Rect.fieldBits : Nat := 16

/-- The integer bit-widths of the coordinate fields of every public geometry
type defined in src/lib.rs, in source order: `UVec2`, `Vec2`, `Vec3`,
`URect`, `Rect`.  The source defines no further geometry types. -/
def familyFieldBits : List Nat :=
  [UVec2.fieldBits, Vec2.fieldBits, Vec3.fieldBits, URect.fieldBits,
    Rect.fieldBits]

/-! Characterization lemmas for the trapping operations. -/

theorem uvec2_add_eq_none_iff (a b : UVec2) :
    UVec2.add a b = none ↔ u16Max < a.x + b.x ∨ u16Max < a.y + b.y := by
  unfold UVec2.add checkedU16
  split_ifs <;> simp <;> omega

theorem uvec2_add_eq_some_iff (a b c : UVec2) :
    UVec2.add a b = some c ↔
      a.x + b.x ≤ u16Max ∧ a.y + b.y ≤ u16Max ∧
        c = ⟨a.x + b.x, a.y + b.y⟩ := by
  unfold UVec2.add checkedU16
  split_ifs <;> simp [eq_comm] <;> tauto

theorem uvec2_sub_eq_none_iff (a b : UVec2) :
    UVec2.sub a b = none ↔ a.x < b.x ∨ a.y < b.y := by
  unfold UVec2.sub
  split_ifs <;> simp <;> omega

theorem uvec2_sub_eq_some_iff (a b c : UVec2) :
    UVec2.sub a b = some c ↔
      b.x ≤ a.x ∧ b.y ≤ a.y ∧ c = ⟨a.x - b.x, a.y - b.y⟩ := by
  unfold UVec2.sub
  split_ifs <;> simp [eq_comm] <;> tauto

theorem uvec2_mul_eq_none_iff (v : UVec2) (s : Nat) :
    UVec2.mul v s = none ↔ u16Max < v.x * s ∨ u16Max < v.y * s := by
  unfold UVec2.mul checkedU16
  split_ifs <;> simp <;> omega

theorem uvec2_mul_eq_some_iff (v : UVec2) (s : Nat) (c : UVec2) :
    UVec2.mul v s = some c ↔
      v.x * s ≤ u16Max ∧ v.y * s ≤ u16Max ∧ c = ⟨v.x * s, v.y * s⟩ := by
  unfold UVec2.mul checkedU16
  split_ifs <;> simp [eq_comm] <;> tauto

theorem uvec2_div_eq_none_iff (v : UVec2) (s : Nat) :
    UVec2.div v s = none ↔ s = 0 := by
  unfold UVec2.div
  split_ifs <;> simp_all

theorem uvec2_div_eq_some_iff (v : UVec2) (s : Nat) (c : UVec2) :
    UVec2.div v s = some c ↔ s ≠ 0 ∧ c = ⟨v.x / s, v.y / s⟩ := by
  unfold UVec2.div
  split_ifs <;> simp [eq_comm] <;> tauto

theorem vec2_add_eq_some_iff (a b c : Vec2) :
    Vec2.add a b = some c ↔
      i16Min ≤ a.x + b.x ∧ a.x + b.x ≤ i16Max ∧
        i16Min ≤ a.y + b.y ∧ a.y + b.y ≤ i16Max ∧
          c = ⟨a.x + b.x, a.y + b.y⟩ := by
  unfold Vec2.add checkedI16
  split_ifs <;> simp [eq_comm] <;> tauto

theorem vec2_mul_eq_some_iff (v : Vec2) (s : Int) (c : Vec2) :
    Vec2.mul v s = some c ↔
      i16Min ≤ v.x * s ∧ v.x * s ≤ i16Max ∧
        i16Min ≤ v.y * s ∧ v.y * s ≤ i16Max ∧
          c = ⟨v.x * s, v.y * s⟩ := by
  unfold Vec2.mul checkedI16
  split_ifs <;> simp [eq_comm] <;> tauto

theorem vec2_div_eq_none_iff (v : Vec2) (s : Int) :
    Vec2.div v s = none ↔
      s = 0 ∨ Int.tdiv v.x s < i16Min ∨ i16Max < Int.tdiv v.x s ∨
        Int.tdiv v.y s < i16Min ∨ i16Max < Int.tdiv v.y s := by
  unfold Vec2.div checkedI16 i16Min i16Max
  split_ifs <;> simp <;> omega

theorem vec2_div_eq_some_iff (v : Vec2) (s : Int) (c : Vec2) :
    Vec2.div v s = some c ↔
      s ≠ 0 ∧ i16Min ≤ Int.tdiv v.x s ∧ Int.tdiv v.x s ≤ i16Max ∧
        i16Min ≤ Int.tdiv v.y s ∧ Int.tdiv v.y s ≤ i16Max ∧
          c = ⟨Int.tdiv v.x s, Int.tdiv v.y s⟩ := by
  unfold Vec2.div checkedI16
  split_ifs <;> simp [eq_comm] <;> tauto

theorem vec3_mul_eq_some_iff (v : Vec3) (s : Int) (c : Vec3) :
    Vec3.mul v s = some c ↔
      i16Min ≤ v.x * s ∧ v.x * s ≤ i16Max ∧
        i16Min ≤ v.y * s ∧ v.y * s ≤ i16Max ∧
          i16Min ≤ v.z * s ∧ v.z * s ≤ i16Max ∧
            c = ⟨v.x * s, v.y * s, v.z * s⟩ := by
  unfold Vec3.mul checkedI16
  split_ifs <;> simp [eq_comm] <;> tauto

theorem vec3_div_eq_none_iff (v : Vec3) (s : Int) :
    Vec3.div v s = none ↔
      s = 0 ∨ Int.tdiv v.x s < i16Min ∨ i16Max < Int.tdiv v.x s ∨
        Int.tdiv v.y s < i16Min ∨ i16Max < Int.tdiv v.y s ∨
          Int.tdiv v.z s < i16Min ∨ i16Max < Int.tdiv v.z s := by
  unfold Vec3.div checkedI16 i16Min i16Max
  split_ifs <;> simp <;> omega

theorem vec3_div_eq_some_iff (v : Vec3) (s : Int) (c : Vec3) :
    Vec3.div v s = some c ↔
      s ≠ 0 ∧ i16Min ≤ Int.tdiv v.x s ∧ Int.tdiv v.x s ≤ i16Max ∧
        i16Min ≤ Int.tdiv v.y s ∧ Int.tdiv v.y s ≤ i16Max ∧
          i16Min ≤ Int.tdiv v.z s ∧ Int.tdiv v.z s ≤ i16Max ∧
            c = ⟨Int.tdiv v.x s, Int.tdiv v.y s, Int.tdiv v.z s⟩ := by
  unfold Vec3.div checkedI16
  split_ifs <;> simp [eq_comm] <;> tauto

theorem urect_center_eq_none_iff (r : URect) :
    URect.center r = none ↔
      u16Max < r.position.x + r.size.x / 2 ∨
        u16Max < r.position.y + r.size.y / 2 := by
  unfold URect.center checkedU16
  split_ifs <;> simp <;> omega

theorem urect_center_eq_some_iff (r : URect) (c : UVec2) :
    URect.center r = some c ↔
      r.position.x + r.size.x / 2 ≤ u16Max ∧
        r.position.y + r.size.y / 2 ≤ u16Max ∧
          c = ⟨r.position.x + r.size.x / 2, r.position.y + r.size.y / 2⟩ := by
  unfold URect.center checkedU16
  split_ifs <;> simp [eq_comm] <;> tauto

theorem rect_center_eq_some_iff (r : Rect) (c : Vec2) :
    Rect.center r = some c ↔
      i16Min ≤ r.position.x + Int.tdiv (u16AsI16 r.size.x) 2 ∧
        r.position.x + Int.tdiv (u16AsI16 r.size.x) 2 ≤ i16Max ∧
          i16Min ≤ r.position.y + Int.tdiv (u16AsI16 r.size.y) 2 ∧
            r.position.y + Int.tdiv (u16AsI16 r.size.y) 2 ≤ i16Max ∧
              c = ⟨r.position.x + Int.tdiv (u16AsI16 r.size.x) 2,
                r.position.y + Int.tdiv (u16AsI16 r.size.y) 2⟩ := by
  unfold Rect.center checkedI16
  split_ifs <;> simp [eq_comm] <;> tauto

/-- Characterization of the single overflowing case of truncating `i16`
division: for an in-range dividend and a non-zero divisor, the quotient
leaves the `i16` range exactly at `i16::MIN / -1`. -/
theorem tdiv_out_of_range_iff (a s : Int)
    (ha1 : i16Min ≤ a) (ha2 : a ≤ i16Max) (hs : s ≠ 0) :
    (Int.tdiv a s < i16Min ∨ i16Max < Int.tdiv a s) ↔
      a = i16Min ∧ s = -1 := by
  simp only [i16Min, i16Max] at *
  constructor
  · intro h
    have habs : (Int.tdiv a s).natAbs = a.natAbs / s.natAbs :=
      Int.natAbs_tdiv a s
    obtain ⟨d, hd⟩ : ∃ d, a.natAbs / s.natAbs = d := ⟨_, rfl⟩
    rw [hd] at habs
    have hds : d ≤ a.natAbs := hd ▸ Nat.div_le_self a.natAbs s.natAbs
    have hq2 : Int.tdiv a s = 32768 := by omega
    rcases Nat.lt_or_ge s.natAbs 2 with h2 | h2
    · have hs1 : s = 1 ∨ s = -1 := by omega
      rcases hs1 with rfl | rfl
      · rw [Int.tdiv_one] at hq2
        omega
      · have hneg : Int.tdiv a (-1) = -a := by
          simp [Int.tdiv_neg a 1]
        omega
    · have hlt : d ≤ a.natAbs / 2 := by
        rw [← hd]
        exact Nat.div_le_div_left h2 (by omega)
      omega
  · rintro ⟨rfl, rfl⟩
    decide

/-! Claim theorems. -/

/-- C2: for all unsigned vectors `a` and `b`, `Subtract(a, b)` traps exactly
when `b.x > a.x` or `b.y > a.y`, and otherwise returns the exact field-wise
difference (the returned fields add back to the original fields, so nothing
is clamped, saturated or wrapped). -/
theorem C2_unsigned_sub (a b : UVec2) (_ha : a.isValid) (_hb : b.isValid) :
    (UVec2.sub a b = none ↔ a.x < b.x ∨ a.y < b.y) ∧
    (b.x ≤ a.x → b.y ≤ a.y →
      UVec2.sub a b = some ⟨a.x - b.x, a.y - b.y⟩ ∧
        a.x - b.x + b.x = a.x ∧ a.y - b.y + b.y = a.y) := by
  refine ⟨uvec2_sub_eq_none_iff a b, fun h1 h2 => ⟨?_, by omega, by omega⟩⟩
  rw [uvec2_sub_eq_some_iff]
  exact ⟨h1, h2, rfl⟩

/-- Witness for C2 at the spec's concrete inputs: `(5,9) - (7,11)` traps and
`(5,9) - (4,1) = (1,8)`. -/
theorem C2_unsigned_sub_witness :
    UVec2.sub (UVec2.new 5 9) (UVec2.new 7 11) = none ∧
    UVec2.sub (UVec2.new 5 9) (UVec2.new 4 1) = some (UVec2.new 1 8) := by
  constructor
  · exact (C2_unsigned_sub (UVec2.new 5 9) (UVec2.new 7 11)
      (by decide) (by decide)).1.mpr (by decide)
  · have h := (C2_unsigned_sub (UVec2.new 5 9) (UVec2.new 4 1)
      (by decide) (by decide)).2 (by decide) (by decide)
    rw [h.1]
    decide

/-- C4: for all unsigned vectors, `Add` traps exactly when a field-wise sum
exceeds `u16::MAX` and `Multiply` traps exactly when a field-wise product
does; in the non-trapping case each returns the exact field-wise sum or
product. -/
theorem C4_unsigned_add_mul (a b : UVec2) (s : Nat)
    (_ha : a.isValid) (_hb : b.isValid) :
    (UVec2.add a b = none ↔ u16Max < a.x + b.x ∨ u16Max < a.y + b.y) ∧
    (a.x + b.x ≤ u16Max → a.y + b.y ≤ u16Max →
      UVec2.add a b = some ⟨a.x + b.x, a.y + b.y⟩) ∧
    (UVec2.mul a s = none ↔ u16Max < a.x * s ∨ u16Max < a.y * s) ∧
    (a.x * s ≤ u16Max → a.y * s ≤ u16Max →
      UVec2.mul a s = some ⟨a.x * s, a.y * s⟩) := by
  refine ⟨uvec2_add_eq_none_iff a b, fun h1 h2 => ?_,
    uvec2_mul_eq_none_iff a s, fun h1 h2 => ?_⟩
  · rw [uvec2_add_eq_some_iff]; exact ⟨h1, h2, rfl⟩
  · rw [uvec2_mul_eq_some_iff]; exact ⟨h1, h2, rfl⟩

/-- Witness for C4: `(2,3) * 2 = (4,6)` from the spec, `(5,9) + (7,11) =
(12,20)` from the repository tests, and an overflowing addition traps. -/
theorem C4_unsigned_add_mul_witness :
    UVec2.mul (UVec2.new 2 3) 2 = some (UVec2.new 4 6) ∧
    UVec2.add (UVec2.new 5 9) (UVec2.new 7 11) = some (UVec2.new 12 20) ∧
    UVec2.add (UVec2.new 65535 0) (UVec2.new 1 0) = none := by
  refine ⟨?_, ?_, ?_⟩
  · have h := (C4_unsigned_add_mul (UVec2.new 2 3) (UVec2.new 2 3) 2
      (by decide) (by decide)).2.2.2 (by decide) (by decide)
    rw [h]
    decide
  · have h := (C4_unsigned_add_mul (UVec2.new 5 9) (UVec2.new 7 11) 0
      (by decide) (by decide)).2.1 (by decide) (by decide)
    rw [h]
    decide
  · exact (C4_unsigned_add_mul (UVec2.new 65535 0) (UVec2.new 1 0) 0
      (by decide) (by decide)).1.mpr (by decide)

/-- C5: for all unsigned vectors `a` and `b` whose sum does not overflow in
either field, `(a + b) - b = a`. -/
theorem C5_add_sub_roundtrip (a b c : UVec2) (ha : a.isValid) (_hb : b.isValid)
    (h : UVec2.add a b = some c) : UVec2.sub c b = some a := by
  obtain ⟨h1, h2, rfl⟩ := (uvec2_add_eq_some_iff a b c).mp h
  rw [uvec2_sub_eq_some_iff]
  refine ⟨?_, ?_, ?_⟩
  · show b.x ≤ a.x + b.x
    omega
  · show b.y ≤ a.y + b.y
    omega
  · show a = ⟨a.x + b.x - b.x, a.y + b.y - b.y⟩
    cases a with
    | mk ax ay =>
      simp only [UVec2.mk.injEq]
      omega

/-- Witness for C5 at `a = (5,9)`, `b = (7,11)`: `(12,20) - (7,11) =
(5,9)`. -/
theorem C5_add_sub_roundtrip_witness :
    UVec2.sub (UVec2.new 12 20) (UVec2.new 7 11) = some (UVec2.new 5 9) :=
  C5_add_sub_roundtrip (UVec2.new 5 9) (UVec2.new 7 11) (UVec2.new 12 20)
    (by decide) (by decide) (by decide)

/-- C7: for both rectangle types, `with_offset(delta)` keeps the size
unchanged and replaces the position by `position + delta`, trapping exactly
when that vector addition traps. -/
theorem C7_with_offset :
    (∀ (r : URect) (d p : UVec2), UVec2.add r.position d = some p →
      URect.with_offset r d = some ⟨p, r.size⟩) ∧
    (∀ (r : URect) (d : UVec2) (r' : URect),
      URect.with_offset r d = some r' →
      r'.size = r.size ∧ UVec2.add r.position d = some r'.position) ∧
    (∀ (r : URect) (d : UVec2), UVec2.add r.position d = none →
      URect.with_offset r d = none) ∧
    (∀ (r : Rect) (d p : Vec2), Vec2.add r.position d = some p →
      Rect.with_offset r d = some ⟨p, r.size⟩) ∧
    (∀ (r : Rect) (d : Vec2) (r' : Rect), Rect.with_offset r d = some r' →
      r'.size = r.size ∧ Vec2.add r.position d = some r'.position) ∧
    (∀ (r : Rect) (d : Vec2), Vec2.add r.position d = none →
      Rect.with_offset r d = none) := by
  refine ⟨fun r d p h => ?_, fun r d r' h => ?_, fun r d h => ?_,
    fun r d p h => ?_, fun r d r' h => ?_, fun r d h => ?_⟩
  · unfold URect.with_offset; rw [h]; rfl
  · unfold URect.with_offset at h
    cases hadd : UVec2.add r.position d with
    | none => rw [hadd] at h; simp at h
    | some p =>
      rw [hadd] at h
      simp only [Option.some.injEq] at h
      subst h
      exact ⟨rfl, rfl⟩
  · unfold URect.with_offset; rw [h]
  · unfold Rect.with_offset; rw [h]; rfl
  · unfold Rect.with_offset at h
    cases hadd : Vec2.add r.position d with
    | none => rw [hadd] at h; simp at h
    | some p =>
      rw [hadd] at h
      simp only [Option.some.injEq] at h
      subst h
      exact ⟨rfl, rfl⟩
  · unfold Rect.with_offset; rw [h]

/-- Witness for C7 at the spec's example: `URect(10,20,30,40)` offset by
`(5,5)` has position `(15,25)` and unchanged size `(30,40)`. -/
theorem C7_with_offset_witness :
    URect.with_offset (URect.new 10 20 30 40) (UVec2.new 5 5) =
      some ⟨UVec2.new 15 25, UVec2.new 30 40⟩ :=
  C7_with_offset.1 (URect.new 10 20 30 40) (UVec2.new 5 5) (UVec2.new 15 25)
    (by decide)

/-- C8: converting a signed 2D vector to 3D always succeeds and yields
`x = v.x`, `y = v.y`, `z = 0`; it also preserves validity. -/
theorem C8_vec3_from_vec2 (v : Vec2) (h : v.isValid) :
    (Vec3.fromVec2 v).x = v.x ∧ (Vec3.fromVec2 v).y = v.y ∧
      (Vec3.fromVec2 v).z = 0 ∧ (Vec3.fromVec2 v).isValid := by
  obtain ⟨h1, h2, h3, h4⟩ := h
  refine ⟨rfl, rfl, rfl, h1, h2, h3, h4, ?_, ?_⟩
  · show i16Min ≤ (0 : Int)
    decide
  · show (0 : Int) ≤ i16Max
    decide

/-- Witness for C8 at `v = (-5, 10)`. -/
theorem C8_vec3_from_vec2_witness :
    (Vec3.fromVec2 (Vec2.new (-5) 10)).x = -5 ∧
      (Vec3.fromVec2 (Vec2.new (-5) 10)).z = 0 := by
  have h := C8_vec3_from_vec2 (Vec2.new (-5) 10) (by decide)
  exact ⟨h.1, h.2.2.1⟩

/-- C9 (amended): the library defines a single 16-bit type family — every
geometry type's coordinate fields are 16 bits wide, with the bounds
`u16Max = 2^16 - 1`, `i16Min = -2^15`, `i16Max = 2^15 - 1`; there is no
32-bit family. -/
theorem C9_single_16bit_family :
    (∀ w ∈ familyFieldBits, w = 16) ∧
      u16Max = 2 ^ 16 - 1 ∧ i16Min = -(2 ^ 15) ∧ i16Max = 2 ^ 15 - 1 := by
  refine ⟨?_, by decide, by decide, by decide⟩
  decide

/-- Witness for C9: the width 16 occurs among the field widths, and the
first family's width is 16. -/
theorem C9_single_16bit_family_witness :
    16 ∈ familyFieldBits ∧ UVec2.fieldBits = 16 :=
  ⟨by decide, C9_single_16bit_family.1 UVec2.fieldBits (by decide)⟩

/-- Counterexample for C9 as stated: no geometry type of the library has
32-bit fields — the claimed parallel 32-bit family does not exist; the five
field widths of the source's five types are all 16. -/
theorem C9_no_32bit_family :
    32 ∉ familyFieldBits ∧ familyFieldBits = [16, 16, 16, 16, 16] := by
  decide

/-- C10: `URect::center` is not total — with valid fields
`position = (65535, 20)` and `size = (2, 2)` the `x` addition overflows
`u16` and `center` traps; in general `center` traps exactly when one of
the two additions overflows (the halvings `size/2` never trap). -/
theorem C10_urect_center_partial :
    UVec2.isValid (UVec2.new 65535 20) ∧ UVec2.isValid (UVec2.new 2 2) ∧
    URect.center (URect.new 65535 20 2 2) = none ∧
    (∀ r : URect, URect.center r = none ↔
      u16Max < r.position.x + r.size.x / 2 ∨
        u16Max < r.position.y + r.size.y / 2) ∧
    (∀ sz : UVec2, ∃ w, UVec2.div sz 2 = some w) :=
  ⟨by decide, by decide, by decide,
    fun r => urect_center_eq_none_iff r,
    fun sz => ⟨⟨sz.x / 2, sz.y / 2⟩,
      (uvec2_div_eq_some_iff sz 2 _).mpr ⟨by decide, rfl⟩⟩⟩

/-- C1 (amended): `URect::center` is position plus size halved by field-wise
truncating division (truncating down for odd sizes), for all field values
for which the additions do not trap; `Rect::center` is the same provided
`size.x` and `size.y` are at most `32767` (larger sizes wrap through the
`u16 → i16` cast before the halving). -/
theorem C1_center_amended :
    (∀ r : URect,
      r.position.x + r.size.x / 2 ≤ u16Max →
      r.position.y + r.size.y / 2 ≤ u16Max →
      URect.center r = some ⟨r.position.x + r.size.x / 2,
        r.position.y + r.size.y / 2⟩) ∧
    (∀ r : Rect, r.isValid → r.size.x ≤ 32767 → r.size.y ≤ 32767 →
      r.position.x + ((r.size.x / 2 : Nat) : Int) ≤ i16Max →
      r.position.y + ((r.size.y / 2 : Nat) : Int) ≤ i16Max →
      Rect.center r = some ⟨r.position.x + ((r.size.x / 2 : Nat) : Int),
        r.position.y + ((r.size.y / 2 : Nat) : Int)⟩) := by
  constructor
  · intro r hx hy
    rw [urect_center_eq_some_iff]
    exact ⟨hx, hy, rfl⟩
  · intro r hv hsx hsy hbx hby
    obtain ⟨⟨hp1, hp2, hp3, hp4⟩, hs⟩ := hv
    have ex : u16AsI16 r.size.x = (r.size.x : Int) := by
      unfold u16AsI16
      rw [if_pos (show r.size.x < 32768 by omega)]
    have ey : u16AsI16 r.size.y = (r.size.y : Int) := by
      unfold u16AsI16
      rw [if_pos (show r.size.y < 32768 by omega)]
    have dx : Int.tdiv (u16AsI16 r.size.x) 2 = ((r.size.x / 2 : Nat) : Int) := by
      rw [ex]
      exact (Int.ofNat_tdiv r.size.x 2).symm
    have dy : Int.tdiv (u16AsI16 r.size.y) 2 = ((r.size.y / 2 : Nat) : Int) := by
      rw [ey]
      exact (Int.ofNat_tdiv r.size.y 2).symm
    rw [rect_center_eq_some_iff, dx, dy]
    refine ⟨by omega, hbx, by omega, hby, rfl⟩

/-- Witness for C1 at the spec's example: `URect(10,20,30,40).center() =
(25,40)`, and likewise for the signed `Rect`. -/
theorem C1_center_amended_witness :
    URect.center (URect.new 10 20 30 40) = some (UVec2.new 25 40) ∧
    Rect.center (Rect.new 10 20 30 40) = some (Vec2.new 25 40) := by
  constructor
  · have h := C1_center_amended.1 (URect.new 10 20 30 40)
      (by decide) (by decide)
    rw [h]
    decide
  · have h := C1_center_amended.2 (Rect.new 10 20 30 40)
      (by decide) (by decide) (by decide) (by decide) (by decide)
    rw [h]
    decide

/-- Counterexample for C1 as stated: for the signed rectangle at position
`(0,0)` with size `(40000,2)` neither addition traps, yet the returned
center `(-12768, 1)` is not position plus size halved by truncating
division, which would be `(20000, 1)` — the `u16 → i16` cast of the size
wraps first. -/
theorem C1_center_counterexample :
    Rect.center (Rect.new 0 0 40000 2) = some (Vec2.new (-12768) 1) ∧
      Vec2.new (-12768) 1 ≠
        Vec2.new (0 + ((40000 / 2 : Nat) : Int)) (0 + ((2 / 2 : Nat) : Int)) := by
  decide

/-- C3 (amended): `Divide(v, s)` traps exactly when `s = 0` or — for the
signed vectors — when `s = -1` and some field is `i16::MIN` (the one
overflowing quotient); otherwise it returns the field-wise
truncating-toward-zero quotient. -/
theorem C3_div_amended :
    (∀ (v : UVec2) (s : Nat),
      (UVec2.div v s = none ↔ s = 0) ∧
      (s ≠ 0 → UVec2.div v s = some ⟨v.x / s, v.y / s⟩)) ∧
    (∀ (v : Vec2) (s : Int), v.isValid →
      (Vec2.div v s = none ↔
        s = 0 ∨ (s = -1 ∧ (v.x = i16Min ∨ v.y = i16Min))) ∧
      (s ≠ 0 → ¬(s = -1 ∧ (v.x = i16Min ∨ v.y = i16Min)) →
        Vec2.div v s = some ⟨Int.tdiv v.x s, Int.tdiv v.y s⟩)) ∧
    (∀ (v : Vec3) (s : Int), v.isValid →
      (Vec3.div v s = none ↔
        s = 0 ∨ (s = -1 ∧ (v.x = i16Min ∨ v.y = i16Min ∨ v.z = i16Min))) ∧
      (s ≠ 0 → ¬(s = -1 ∧ (v.x = i16Min ∨ v.y = i16Min ∨ v.z = i16Min)) →
        Vec3.div v s = some ⟨Int.tdiv v.x s, Int.tdiv v.y s, Int.tdiv v.z s⟩)) := by
  refine ⟨fun v s => ⟨uvec2_div_eq_none_iff v s, fun hs => ?_⟩,
    fun v s hv => ?_, fun v s hv => ?_⟩
  · rw [uvec2_div_eq_some_iff]
    exact ⟨hs, rfl⟩
  · obtain ⟨h1, h2, h3, h4⟩ := hv
    constructor
    · rw [vec2_div_eq_none_iff]
      by_cases hs : s = 0
      · subst hs
        tauto
      · have hx := tdiv_out_of_range_iff v.x s h1 h2 hs
        have hy := tdiv_out_of_range_iff v.y s h3 h4 hs
        tauto
    · intro hs hnot
      have hx := tdiv_out_of_range_iff v.x s h1 h2 hs
      have hy := tdiv_out_of_range_iff v.y s h3 h4 hs
      rw [vec2_div_eq_some_iff]
      refine ⟨hs, ?_, ?_, ?_, ?_, rfl⟩ <;> omega
  · obtain ⟨h1, h2, h3, h4, h5, h6⟩ := hv
    constructor
    · rw [vec3_div_eq_none_iff]
      by_cases hs : s = 0
      · subst hs
        tauto
      · have hx := tdiv_out_of_range_iff v.x s h1 h2 hs
        have hy := tdiv_out_of_range_iff v.y s h3 h4 hs
        have hz := tdiv_out_of_range_iff v.z s h5 h6 hs
        omega
    · intro hs hnot
      have hx := tdiv_out_of_range_iff v.x s h1 h2 hs
      have hy := tdiv_out_of_range_iff v.y s h3 h4 hs
      have hz := tdiv_out_of_range_iff v.z s h5 h6 hs
      rw [vec3_div_eq_some_iff]
      refine ⟨hs, ?_, ?_, ?_, ?_, ?_, ?_, rfl⟩ <;> omega

/-- Witness for C3: `(5,9) / 3 = (1,3)` from the spec, and truncating
signed quotients for `Vec2` and `Vec3`. -/
theorem C3_div_amended_witness :
    UVec2.div (UVec2.new 5 9) 3 = some (UVec2.new 1 3) ∧
    Vec2.div (Vec2.new (-7) 7) 2 = some (Vec2.new (-3) 3) ∧
    Vec3.div (Vec3.new (-7) 7 5) (-2) = some (Vec3.new 3 (-3) (-2)) := by
  refine ⟨?_, ?_, ?_⟩
  · have h := (C3_div_amended.1 (UVec2.new 5 9) 3).2 (by decide)
    rw [h]
    decide
  · have h := (C3_div_amended.2.1 (Vec2.new (-7) 7) 2 (by decide)).2
      (by decide) (by decide)
    rw [h]
    decide
  · have h := (C3_div_amended.2.2 (Vec3.new (-7) 7 5) (-2) (by decide)).2
      (by decide) (by decide)
    rw [h]
    decide

/-- Counterexample for C3 as stated: the divisor `-1` is not zero, yet
dividing the valid vector `(-32768, 0)` by it traps (the quotient `32768`
overflows `i16`) instead of returning the field-wise quotient. -/
theorem C3_div_counterexample :
    ((-1 : Int) ≠ 0) ∧ Vec2.isValid (Vec2.new (-32768) 0) ∧
      Vec2.div (Vec2.new (-32768) 0) (-1) = none := by
  decide

/-- C6: for every vector `v` (unsigned 2D, signed 2D, signed 3D) and
non-zero scalar `s` such that `v * s` does not overflow in any field,
`(v * s) / s = v`. -/
theorem C6_mul_div_roundtrip :
    (∀ (v w : UVec2) (s : Nat), s ≠ 0 → UVec2.mul v s = some w →
      UVec2.div w s = some v) ∧
    (∀ (v w : Vec2) (s : Int), v.isValid → s ≠ 0 → Vec2.mul v s = some w →
      Vec2.div w s = some v) ∧
    (∀ (v w : Vec3) (s : Int), v.isValid → s ≠ 0 → Vec3.mul v s = some w →
      Vec3.div w s = some v) := by
  refine ⟨fun v w s hs h => ?_, fun v w s hv hs h => ?_,
    fun v w s hv hs h => ?_⟩
  · obtain ⟨h1, h2, rfl⟩ := (uvec2_mul_eq_some_iff v s w).mp h
    rw [uvec2_div_eq_some_iff]
    refine ⟨hs, ?_⟩
    have hx : (⟨v.x * s, v.y * s⟩ : UVec2).x / s = v.x :=
      Nat.mul_div_cancel v.x (Nat.pos_of_ne_zero hs)
    have hy : (⟨v.x * s, v.y * s⟩ : UVec2).y / s = v.y :=
      Nat.mul_div_cancel v.y (Nat.pos_of_ne_zero hs)
    rw [hx, hy]
  · obtain ⟨hv1, hv2, hv3, hv4⟩ := hv
    obtain ⟨h1, h2, h3, h4, rfl⟩ := (vec2_mul_eq_some_iff v s w).mp h
    have hx : Int.tdiv ((⟨v.x * s, v.y * s⟩ : Vec2).x) s = v.x :=
      Int.mul_tdiv_cancel v.x hs
    have hy : Int.tdiv ((⟨v.x * s, v.y * s⟩ : Vec2).y) s = v.y :=
      Int.mul_tdiv_cancel v.y hs
    rw [vec2_div_eq_some_iff, hx, hy]
    exact ⟨hs, hv1, hv2, hv3, hv4, rfl⟩
  · obtain ⟨hv1, hv2, hv3, hv4, hv5, hv6⟩ := hv
    obtain ⟨h1, h2, h3, h4, h5, h6, rfl⟩ := (vec3_mul_eq_some_iff v s w).mp h
    have hx : Int.tdiv ((⟨v.x * s, v.y * s, v.z * s⟩ : Vec3).x) s = v.x :=
      Int.mul_tdiv_cancel v.x hs
    have hy : Int.tdiv ((⟨v.x * s, v.y * s, v.z * s⟩ : Vec3).y) s = v.y :=
      Int.mul_tdiv_cancel v.y hs
    have hz : Int.tdiv ((⟨v.x * s, v.y * s, v.z * s⟩ : Vec3).z) s = v.z :=
      Int.mul_tdiv_cancel v.z hs
    rw [vec3_div_eq_some_iff, hx, hy, hz]
    exact ⟨hs, hv1, hv2, hv3, hv4, hv5, hv6, rfl⟩

/-- Witness for C6 at the spec's example `v = (4,6)`, `s = 2` (so
`(8,12) / 2 = (4,6)`), plus signed instances. -/
theorem C6_mul_div_roundtrip_witness :
    UVec2.div (UVec2.new 8 12) 2 = some (UVec2.new 4 6) ∧
    Vec2.div (Vec2.new (-8) 12) 2 = some (Vec2.new (-4) 6) ∧
    Vec3.div (Vec3.new 8 (-12) 2) 2 = some (Vec3.new 4 (-6) 1) := by
  refine ⟨?_, ?_, ?_⟩
  · exact C6_mul_div_roundtrip.1 (UVec2.new 4 6) (UVec2.new 8 12) 2
      (by decide) (by decide)
  · exact C6_mul_div_roundtrip.2.1 (Vec2.new (-4) 6) (Vec2.new (-8) 12) 2
      (by decide) (by decide) (by decide)
  · exact C6_mul_div_roundtrip.2.2 (Vec3.new 4 (-6) 1) (Vec3.new 8 (-12) 2) 2
      (by decide) (by decide) (by decide)

end IntMath
